import Mathlib

/-!
Verification of the animation-capture-tool core algorithms.

This file gives a shallow embedding, in Lean, of the core algorithms of the
repository:

* the style-diff significance predicate and `computeStyleDiff` of
  `DOMDiffCompressor` (dom-diff module);
* the mutation compressor `compressMutations` of `DOMDiffCompressor`, and the
  re-vendored inline form injected into the page context
  (`getDOMDiffEngineInline` in `src/instrumentation.ts`);
* the profile synthesis pipeline `extractProfiles` /
  `findConsistentStyleChanges` of `TraceWriter` (`src/trace-writer.ts`);
* the selector engine `StableSelectorEngine.generate` (`src/selectors.ts`),
  over a tree model of the DOM.

JavaScript maps (plain objects and `Map`) are embedded as insertion-ordered
association lists; JS falsiness of strings (only the empty string is falsy) is
embedded explicitly; the IEEE-754 binary64 (`number`) arithmetic of the
significance predicate is embedded exactly: every finite double is a dyadic
rational, `parseFloat` and subtraction round their exact rational results to
the nearest double (ties to even), and `roundToDouble` implements that
rounding on integers so that it evaluates in the kernel.
-/

set_option maxRecDepth 8000

namespace ACT

/-- Lookup in an insertion-ordered association list of string keys, returning
the first binding, as JS property access on an object returns its (unique)
binding or `undefined`. -/
def jsGet (m : List (String × String)) (k : String) : Option String :=
  (m.find? (fun e => e.1 == k)).map (fun e => e.2)

/-- Embeds the JS idiom `x || d` on an optional string value: `undefined` and
the empty string (both falsy) fall back to the default. -/
def jsOr (o : Option String) (d : String) : String :=
  match o with
  | some v => if v = "" then d else v
  | none => d

/-! ## DOMDiffCompressor: style diff significance -/

/-- The fixed whitelist `MEANINGFUL_STYLE_PROPERTIES` of the dom-diff module. -/
def MEANINGFUL_STYLE_PROPERTIES : List String :=
  ["display", "visibility", "opacity", "transform", "transition", "animation",
   "position", "top", "left", "right", "bottom", "width", "height", "z-index",
   "overflow", "clip-path", "filter", "backdrop-filter"]

/-- Digits-to-Nat accumulator for decimal digit lists. -/
def digitsToNat (l : List Char) : Nat :=
  l.foldl (fun acc c => 10 * acc + (c.toNat - 48)) 0

/-- The decimal-literal part of JS `parseFloat` on the forms CSS values take:
optional leading whitespace, an optional sign, then decimal digits with an
optional fractional part, ignoring any trailing characters (so the literal of
`"100px"` is 100).  Returns `none` where `parseFloat` returns `NaN`.  The
decimal is kept exact as a scaled integer: `(z, n)` denotes the rational
`z / 10 ^ n` (see `valQ`); `parseFloatD` then rounds it to a binary64 double,
as `parseFloat` does. -/
def parseFloatZ (s : String) : Option (ℤ × ℕ) :=
  let cs := s.data.dropWhile (fun c => c == ' ' || c == '\t' || c == '\n' || c == '\r')
  let sgn : ℤ := match cs with | '-' :: _ => -1 | _ => 1
  let cs1 : List Char :=
    match cs with
    | '-' :: rest => rest
    | '+' :: rest => rest
    | _ => cs
  let intPart := cs1.takeWhile Char.isDigit
  let afterInt := cs1.dropWhile Char.isDigit
  let fracPart : List Char :=
    match afterInt with
    | '.' :: rest => rest.takeWhile Char.isDigit
    | _ => []
  if intPart.isEmpty && fracPart.isEmpty then none
  else
    some (sgn * ((digitsToNat intPart * 10 ^ fracPart.length + digitsToNat fracPart : ℕ) : ℤ),
      fracPart.length)

/-- The exact rational value a decimal parse result denotes. -/
def valQ (p : ℤ × ℕ) : ℚ :=
  (p.1 : ℚ) / (10 : ℚ) ^ p.2

/-- Bit length of a natural number, computed with explicit fuel so that it
evaluates in the kernel; the fixed fuel of `bitLen` covers every number below
`2 ^ 1100`, far beyond the binary64 finite range. -/
def bitLenAux : ℕ → ℕ → ℕ
  | 0, _ => 0
  | fuel + 1, n => if n = 0 then 0 else bitLenAux fuel (n / 2) + 1

/-- Bit length of a natural number (`bitLen 0 = 0`, `bitLen 5 = 3`). -/
def bitLen (n : ℕ) : ℕ :=
  bitLenAux 1100 n

/-- Rounds the exact rational `num / den` to the nearest IEEE-754 binary64
value, ties to even, returned as a dyadic rational `(m, k)` denoting
`m / 2 ^ k` with a 53-bit significand.  This is the exact rounding that JS
`number` arithmetic applies to the result of `parseFloat` and of every
arithmetic operation.  The model covers the full normal finite range (it
applies no sub-normal precision loss and no overflow-to-infinity, which only
matter beyond roughly `10 ^ ±308`, far outside any CSS value); every value
appearing in this development is mid-range. -/
def roundToDouble (num : ℤ) (den : ℕ) : ℤ × ℕ :=
  if num = 0 ∨ den = 0 then (0, 0)
  else
    let a : ℕ := num.natAbs
    let la := bitLen a
    let lb := bitLen den
    let en := lb + 53
    let q0 := (a * 2 ^ en) / (den * 2 ^ la)
    let ep := if 2 ^ 53 ≤ q0 then la + 1 else la
    let d := den * 2 ^ ep
    let q := (a * 2 ^ en) / d
    let r := (a * 2 ^ en) % d
    let m0 :=
      if d < 2 * r then q + 1
      else if 2 * r < d then q
      else if q % 2 = 0 then q else q + 1
    let ep2 := if m0 = 2 ^ 53 then ep + 1 else ep
    let m := if m0 = 2 ^ 53 then 2 ^ 52 else m0
    let sgn : ℤ := if num < 0 then -1 else 1
    if en ≤ ep2 then (sgn * (m * 2 ^ (ep2 - en) : ℕ), 0)
    else (sgn * m, en - ep2)

/-- Embeds JS `parseFloat`: the parsed decimal literal rounded to the nearest
binary64 double. -/
def parseFloatD (s : String) : Option (ℤ × ℕ) :=
  (parseFloatZ s).map (fun p => roundToDouble p.1 (10 ^ p.2))

/-- The rational value a dyadic (double) result denotes. -/
def dyQ (x : ℤ × ℕ) : ℚ :=
  (x.1 : ℚ) / (2 : ℚ) ^ x.2

/-- The binary64 subtraction `to - from` of two doubles: the exact dyadic
difference rounded back to a double, exactly as IEEE subtraction behaves. -/
def deltaD (f t : ℤ × ℕ) : ℤ × ℕ :=
  roundToDouble (t.1 * 2 ^ f.2 - f.1 * 2 ^ t.2) (2 ^ (f.2 + t.2))

/-- The double denoted by the source literal `0.01`: the nearest binary64
value to 1/100 (which is not itself representable). -/
def dbl01 : ℤ × ℕ :=
  roundToDouble 1 100

/-- Embeds `DOMDiffCompressor.isSignificantChange`: empty-to-empty is never
significant; the six position/size properties compare
`Math.abs(parseFloat(to) - parseFloat(from)) >= 1` in binary64 when both
parse; `opacity` compares against the double `0.01` likewise; every other
case (other whitelisted properties, or parse failure) is significant.  The
double comparisons are rendered as exact integer comparisons of the dyadic
values; `dyadic_ge_one_iff` and `dyadic_ge_threshold_iff` prove the
renderings equal the rational comparisons of the dyadic values. -/
def isSignificantChange (property from_ to_ : String) : Bool :=
  if from_ = "" && to_ = "" then false
  else
    let sizeCheck : Option Bool :=
      if (["width", "height", "top", "left", "right", "bottom"] : List String).contains property then
        match parseFloatD from_, parseFloatD to_ with
        | some f, some t =>
          some (decide ((2 : ℕ) ^ (deltaD f t).2 ≤ (deltaD f t).1.natAbs))
        | _, _ => none
      else none
    match sizeCheck with
    | some b => b
    | none =>
      let opacityCheck : Option Bool :=
        if property = "opacity" then
          match parseFloatD from_, parseFloatD to_ with
          | some f, some t =>
            some (decide (dbl01.1.natAbs * 2 ^ (deltaD f t).2 ≤
              (deltaD f t).1.natAbs * 2 ^ dbl01.2))
          | _, _ => none
        else none
      match opacityCheck with
      | some b => b
      | none => true

/-- Embeds `CSSStyleDeclaration.getPropertyValue` over a captured style map:
absent properties read as the empty string. -/
def getPV (m : List (String × String)) (p : String) : String :=
  (jsGet m p).getD ""

/-- Result shape of `computeStyleDiff` (the `StyleDiff` interface): a selector
(left empty, to be set by the caller) and the property changes. -/
structure StyleDiff where
  selector : String
  changes : List (String × String × String)
  deriving Repr, DecidableEq

/-- Embeds `DOMDiffCompressor.computeStyleDiff`: walks the whitelist, keeps the
properties whose values differ and pass the significance predicate, and
returns `none` (the JS `null`) when no change qualifies. -/
def computeStyleDiff (beforeStyles afterStyles : List (String × String)) : Option StyleDiff :=
  let changes := MEANINGFUL_STYLE_PROPERTIES.filterMap (fun prop =>
    let b := getPV beforeStyles prop
    let a := getPV afterStyles prop
    if b ≠ a && isSignificantChange prop b a then some (prop, b, a) else none)
  if changes.isEmpty then none
  else some { selector := "", changes := changes }

/-! ## DOMDiffCompressor: mutation compression -/

/-- A raw DOM-mutation notification as the compressor consumes it: the kind
(`"attributes"` or `"childList"`), the attribute name when present, and the
target, modelled by an identity together with a flag recording whether the
target node is an `Element` (the code tests `mutation.target instanceof
Element` before counting it). -/
structure MutationRec where
  targetIsElement : Bool
  targetId : Nat
  type : String
  attributeName : Option String
  deriving Repr, DecidableEq

/-- Loop state of the `compressMutations` scan: the `Set` of affected element
targets (embedded as a duplicate-free insertion-ordered list) and the three
flags. -/
structure MState where
  affected : List Nat
  hasAttr : Bool
  hasChild : Bool
  hasClass : Bool
  deriving Repr, DecidableEq

/-- Adds the mutation target to the affected set when it is an element
(`affectedElements.add(mutation.target)` guarded by `instanceof Element`). -/
def affStep (acc : List Nat) (m : MutationRec) : List Nat :=
  if m.targetIsElement && !(acc.contains m.targetId) then acc ++ [m.targetId] else acc

/-- One iteration of the `compressMutations` loop body. -/
def mstep (st : MState) (m : MutationRec) : MState :=
  let affected := affStep st.affected m
  if m.type = "attributes" then
    { affected := affected, hasAttr := true, hasChild := st.hasChild,
      hasClass := st.hasClass || (m.attributeName == some "class") }
  else if m.type = "childList" then
    { affected := affected, hasAttr := st.hasAttr, hasChild := true,
      hasClass := st.hasClass }
  else
    { affected := affected, hasAttr := st.hasAttr, hasChild := st.hasChild,
      hasClass := st.hasClass }

/-- Result shape of `compressMutations`. -/
structure CompressedIntent where
  intent : String
  summary : String
  affectedElements : Nat
  deriving Repr, DecidableEq

/-- Embeds the canonical `DOMDiffCompressor.compressMutations` of the dom-diff
module: a single scan computing the affected-element set and the three flags,
then the priority-ordered intent classification. -/
def compressMutations (mutations : List MutationRec) : CompressedIntent :=
  let st := mutations.foldl mstep { affected := [], hasAttr := false, hasChild := false, hasClass := false }
  let n := st.affected.length
  let intent :=
    if st.hasClass && !st.hasChild then "style-change"
    else if st.hasChild && n == 1 then "content-update"
    else if st.hasChild && decide (n > 1) then "dom-restructure"
    else if st.hasAttr then "attribute-change"
    else "unknown"
  { intent := intent,
    summary := toString mutations.length ++ " mutations on " ++ toString n ++ " elements",
    affectedElements := n }

/-- Loop state of the inline engine's scan (no attribute flag is kept). -/
structure IState where
  affected : List Nat
  hasClass : Bool
  hasChild : Bool
  deriving Repr, DecidableEq

/-- One iteration of the inline engine's loop body
(`getDOMDiffEngineInline`, `src/instrumentation.ts`). -/
def istep (st : IState) (m : MutationRec) : IState :=
  { affected := affStep st.affected m,
    hasClass := st.hasClass || (m.type == "attributes" && m.attributeName == some "class"),
    hasChild := st.hasChild || (m.type == "childList") }

/-- Embeds the re-vendored inline `compressMutations` injected into the page
context: same scan of targets and class/childList flags, but no
attribute-change branch, and the third branch fires on any remaining childList
batch. -/
def inlineCompressMutations (mutations : List MutationRec) : CompressedIntent :=
  let st := mutations.foldl istep { affected := [], hasClass := false, hasChild := false }
  let n := st.affected.length
  let intent :=
    if st.hasClass && !st.hasChild then "style-change"
    else if st.hasChild && n == 1 then "content-update"
    else if st.hasChild then "dom-restructure"
    else "unknown"
  { intent := intent,
    summary := toString mutations.length ++ " mutations on " ++ toString n ++ " elements",
    affectedElements := n }

/-- Classification exactly as the specification words it (priority order with
`hasOtherAttributeChange`, the distinct affected elements of the batch); stated
from the spec for comparison with the embedded code. -/
def claimHasClass (l : List MutationRec) : Bool :=
  l.any (fun m => m.type == "attributes" && m.attributeName == some "class")

/-- Whether the batch holds any childList-kind mutation, as the spec words it. -/
def claimHasChild (l : List MutationRec) : Bool :=
  l.any (fun m => m.type == "childList")

/-- Whether the batch holds an attribute mutation whose name is not `class`,
as the spec words it (`hasOtherAttributeChange`). -/
def claimHasOtherAttr (l : List MutationRec) : Bool :=
  l.any (fun m => m.type == "attributes" && m.attributeName != some "class")

/-- The distinct affected elements of a batch, in first-appearance order. -/
def affectedList (l : List MutationRec) : List Nat :=
  l.foldl affStep []

/-- Number of distinct affected elements of a batch. -/
def claimAffectedCount (l : List MutationRec) : Nat :=
  (affectedList l).length

/-- The intent the specification prescribes, in its stated priority order. -/
def claimIntent (l : List MutationRec) : String :=
  if claimHasClass l && !claimHasChild l then "style-change"
  else if claimHasChild l && claimAffectedCount l == 1 then "content-update"
  else if claimHasChild l && decide (claimAffectedCount l > 1) then "dom-restructure"
  else if claimHasOtherAttr l then "attribute-change"
  else "unknown"

/-! ## TraceWriter: profile synthesis -/

/-- The interaction-event metadata of a trace record (`InteractionEvent` in the
type definitions; only `kind` and `selector` are consulted by synthesis). -/
structure InteractionEvent where
  kind : String
  selector : String
  deriving Repr, DecidableEq

/-- Structural snapshot of an element (`DOMSnapshot`). -/
structure DOMSnapshot where
  selector : String
  html : String
  attributes : List (String × String)
  classes : List String
  text : Option String
  deriving Repr, DecidableEq

/-- Computed-style snapshot of an element (`StyleSnapshot`). -/
structure StyleSnapshot where
  selector : String
  computed : List (String × String)
  deriving Repr, DecidableEq

/-- A before or after snapshot pair of a trace record. -/
structure SnapPair where
  dom : DOMSnapshot
  style : StyleSnapshot
  deriving Repr, DecidableEq

/-- A trace record as `extractProfiles` consumes it.  The persistence-only
fields of the `TraceRecord` interface (`sessionId`, `url`, `viewport`,
`mutation`, `network`, `annotation`) are never consulted by profile synthesis
and are not modelled. -/
structure TraceRecord where
  ts : Nat
  type : String
  event : Option InteractionEvent
  before : Option SnapPair
  after : Option SnapPair
  deriving Repr, DecidableEq

/-- The optional timing object of an animation profile; the optional fields
mirror the `AnimationProfile` interface (`duration`, `easing?`, `delay?`). -/
structure Timing where
  duration : String
  easing : Option String
  delay : Option String
  deriving Repr, DecidableEq

/-- The trigger of an animation profile. -/
structure Trigger where
  event : String
  selector : String
  deriving Repr, DecidableEq

/-- The effect of an animation profile; `properties` is the insertion-ordered
map from property name to its from/to pair. -/
structure Effect where
  type : String
  target : String
  properties : List (String × String × String)
  timing : Option Timing
  deriving Repr, DecidableEq

/-- An animation profile as `extractProfiles` emits it. -/
structure AnimationProfile where
  name : String
  trigger : Trigger
  effect : Effect
  deriving Repr, DecidableEq

/-- A trigger/effect pair as collected by `findConsistentStyleChanges`. -/
structure StyleChange where
  trigger : Trigger
  effect : Effect
  deriving Repr, DecidableEq

/-- Lookup of a key in the collected `properties` map (JS truthiness of the
`{from, to}` record values makes `properties[k]` a pure presence test). -/
def propsGet (l : List (String × String × String)) (k : String) : Option (String × String) :=
  (l.find? (fun e => e.1 == k)).map (fun e => e.2)

/-- The `properties` loop of `findConsistentStyleChanges`: walk the keys of the
after style map in order and record each property whose after value differs
from the before value (`undefined` reads as distinct from every string, and
absent `from` values are written as the empty string). -/
def computeProperties (beforeStyle afterStyle : List (String × String)) :
    List (String × String × String) :=
  afterStyle.filterMap (fun pv =>
    if jsGet beforeStyle pv.1 = some pv.2 then none
    else some (pv.1, (jsGet beforeStyle pv.1).getD "", pv.2))

/-- Embeds `TraceWriter.findConsistentStyleChanges`: per record, skip when
event/before/after is missing, compute the changed properties, skip when none
changed, classify the effect type, and extract timing exactly when the
properties map holds the key `transition`. -/
def findConsistentStyleChanges (traces : List TraceRecord) : List StyleChange :=
  traces.filterMap (fun trace =>
    match trace.event, trace.before, trace.after with
    | some ev, some b, some a =>
      let properties := computeProperties b.style.computed a.style.computed
      if properties.length > 0 then
        let effectType :=
          if a.dom.classes.length ≠ b.dom.classes.length then "class-toggle"
          else if (propsGet properties "animation-name").isSome then "animation"
          else "transition"
        let timing : Option Timing :=
          if (propsGet properties "transition").isSome then
            some { duration := jsOr (jsGet a.style.computed "transition-duration") "0s",
                   easing := some (jsOr (jsGet a.style.computed "transition-timing-function") "ease"),
                   delay := some (jsOr (jsGet a.style.computed "transition-delay") "0s") }
          else none
        some { trigger := { event := ev.kind, selector := ev.selector },
               effect := { type := effectType, target := ev.selector,
                           properties := properties, timing := timing } }
      else none
    | _, _, _ => none)

/-- The selector of a trace record when it takes part in grouping
(`trace.type === 'interaction' && trace.event`). -/
def interactionSel (t : TraceRecord) : Option String :=
  if t.type = "interaction" then t.event.map (fun e => e.selector) else none

/-- Inserts a record into the insertion-ordered group list, extending the
group of its selector or appending a new group, as `Map.set` does. -/
def groupInsert (groups : List (String × List TraceRecord)) (sel : String)
    (t : TraceRecord) : List (String × List TraceRecord) :=
  match groups with
  | [] => [(sel, [t])]
  | g :: rest =>
    if g.1 = sel then (g.1, g.2 ++ [t]) :: rest else g :: groupInsert rest sel t

/-- One step of the grouping loop of `extractProfiles`: an interaction record
with an event is inserted under its selector, anything else is skipped. -/
def gstep (acc : List (String × List TraceRecord)) (t : TraceRecord) :
    List (String × List TraceRecord) :=
  match interactionSel t with
  | some sel => groupInsert acc sel t
  | none => acc

/-- The `bySelector` map of `extractProfiles`, embedded as an
insertion-ordered association list. -/
def groupBySelector (traces : List TraceRecord) : List (String × List TraceRecord) :=
  traces.foldl gstep []

/-- Splits a character list at every occurrence of a separator character, as
JS `String.split` with a one-character separator (the empty string splits to
one empty token). -/
def splitOnChar (sep : Char) : List Char → List (List Char)
  | [] => [[]]
  | c :: rest =>
    let r := splitOnChar sep rest
    if c == sep then [] :: r
    else
      match r with
      | t :: ts => (c :: t) :: ts
      | [] => [[c]]

/-- The name token of `extractProfiles`, embedding
`selector.split(' ').pop() || 'element'`. -/
def lastToken (sel : String) : String :=
  match (splitOnChar ' ' sel.data).getLast? with
  | some t => if t.isEmpty then "element" else String.mk t
  | none => "element"

/-- Profiles emitted for one selector group of `extractProfiles`. -/
def profilesForGroup (sel : String) (ts : List TraceRecord) : List AnimationProfile :=
  let styleChanges := findConsistentStyleChanges ts
  if styleChanges.length > 0 then
    styleChanges.map (fun change =>
      { name := change.trigger.event ++ "-on-" ++ lastToken sel,
        trigger := change.trigger, effect := change.effect })
  else []

/-- Embeds `TraceWriter.extractProfiles` over a given trace list: group the
interaction records by selector in first-appearance order, then emit the
qualifying style changes of each group as profiles. -/
def extractProfiles (traces : List TraceRecord) : List AnimationProfile :=
  ((groupBySelector traces).map (fun g => profilesForGroup g.1 g.2)).flatten

/-- First-appearance order of the distinct selectors of the interaction
records, as the specification words the grouping policy. -/
def firstSelectors : List TraceRecord → List String
  | [] => []
  | t :: rest =>
    match interactionSel t with
    | none => firstSelectors rest
    | some s => s :: (firstSelectors rest).filter (fun x => decide (x ≠ s))

/-- The interaction records carrying a given selector, in original order, as
the specification words the within-group policy. -/
def selFilter (s : String) (l : List TraceRecord) : List TraceRecord :=
  l.filter (fun t => decide (interactionSel t = some s))

/-- Profile extraction exactly as the specification words it: for each
distinct selector in first-appearance order, the profiles of its records in
original order. -/
def specExtract (traces : List TraceRecord) : List AnimationProfile :=
  ((firstSelectors traces).map (fun s => profilesForGroup s (selFilter s traces))).flatten

/-! ## StableSelectorEngine

The DOM is modelled as a tree of element nodes; an element instance is a tree
together with the path of child indices leading to it, so that reference
identity (`matches[0] === element`) is position identity.  The flag `attached`
records whether that tree is the document itself (a detached element lives in
a tree that is not the document). -/

/-- The data of one element node: tag name (as the DOM reports it, e.g.
upper-case for HTML), attribute map and class list. -/
structure ElemData where
  tag : String
  attrs : List (String × String)
  classes : List String
  deriving Repr, DecidableEq

/-- A DOM (sub)tree. -/
inductive DomTree where
  | node : ElemData → List DomTree → DomTree

/-- The element data at the root of a tree. -/
def DomTree.data : DomTree → ElemData
  | .node d _ => d

/-- The child subtrees of a tree. -/
def DomTree.children : DomTree → List DomTree
  | .node _ cs => cs

/-- The node reached from a tree by a path of child indices. -/
def elemAt : DomTree → List Nat → Option DomTree
  | t, [] => some t
  | t, i :: rest =>
    match t.children.get? i with
    | some c => elemAt c rest
    | none => none

/-- Lower-cases a string character-wise (`tagName.toLowerCase()`). -/
def lowerStr (s : String) : String :=
  String.mk (s.data.map Char.toLower)

/-- The candidate selectors the attribute and class tiers build, kept in
structured form; `renderSel` gives the exact string the code builds, and
matching is defined on the structure, which agrees with CSS semantics on
these two shapes. -/
inductive Sel where
  | attr (tag attrName attrVal : String)
  | cls (tag : String) (classes : List String)
  deriving Repr, DecidableEq

/-- Joins string fragments with a separator, as JS `Array.join`. -/
def joinSep (sep : String) : List String → String
  | [] => ""
  | x :: xs =>
    match xs with
    | [] => x
    | _ => x ++ sep ++ joinSep sep xs

/-- The exact selector string the code builds for a candidate. -/
def renderSel : Sel → String
  | .attr tag a v => tag ++ "[" ++ a ++ "=\"" ++ v ++ "\"]"
  | .cls tag cs => tag ++ "." ++ joinSep "." cs

/-- Characters accepted inside a CSS identifier in this model. -/
def validIdentChar (c : Char) : Bool :=
  c.isAlphanum || c == '-' || c == '_'

/-- Whether the rendered candidate parses as a CSS selector.  An attribute
value holding a quote, backslash or newline breaks the quoted string; a class
token that is empty, starts with a digit, or holds a non-identifier character
breaks the class selector.  `document.querySelectorAll` throws on such
strings, which `isUnique` catches. -/
def selValid : Sel → Bool
  | .attr _ _ v => !(v.data.contains '"') && !(v.data.contains '\\') && !(v.data.contains '\n')
  | .cls _ cs => cs.all (fun c =>
      !c.isEmpty && !((c.data.head?.getD 'a').isDigit) && c.data.all validIdentChar)

/-- Whether an element matches a candidate selector: tag names compare
case-insensitively (the candidate carries the lower-cased form), an attribute
selector requires the exact attribute value, a class selector requires every
listed class. -/
def selMatches (sel : Sel) (d : ElemData) : Bool :=
  match sel with
  | .attr tag a v => lowerStr d.tag == tag && jsGet d.attrs a == some v
  | .cls tag cs => lowerStr d.tag == tag && cs.all (fun c => d.classes.contains c)

mutual

/-- Pre-order collection of the paths of all nodes of a tree matching a
candidate selector (document order, as `querySelectorAll`). -/
def qsaAux (sel : Sel) : DomTree → List Nat → List (List Nat)
  | .node d cs, path =>
    (if selMatches sel d then [path] else []) ++ qsaChildren sel cs path 0

/-- Pre-order collection over a list of sibling subtrees. -/
def qsaChildren (sel : Sel) : List DomTree → List Nat → Nat → List (List Nat)
  | [], _, _ => []
  | c :: rest, path, i => qsaAux sel c (path ++ [i]) ++ qsaChildren sel rest path (i + 1)

end

/-- Embeds `document.querySelectorAll` on a candidate: an invalid selector
string throws (the `error` case); otherwise the matching nodes in document
order. -/
def qsaE (doc : DomTree) (sel : Sel) : Except Unit (List (List Nat)) :=
  if selValid sel then .ok (qsaAux sel doc []) else .error ()

/-- Embeds `StableSelectorEngine.isUnique`: query the whole document, treat
any thrown error as not unique, and accept exactly one match that is the
element itself (position identity; a detached element is never a match). -/
def isUnique (doc : DomTree) (attached : Bool) (epath : List Nat) (sel : Sel) : Bool :=
  match qsaE doc sel with
  | .ok [p] => attached && p == epath
  | .ok _ => false
  | .error _ => false

/-- The fixed preference list `DEFAULT_PREFERRED_ATTRIBUTES`. -/
def DEFAULT_PREFERRED_ATTRIBUTES : List String :=
  ["id", "data-testid", "data-test", "data-id", "name", "aria-label", "role",
   "type", "href", "for"]

/-- The fixed noise list `DEFAULT_IGNORED_ATTRIBUTES`. -/
def DEFAULT_IGNORED_ATTRIBUTES : List String :=
  ["data-reactid", "data-react-checksum", "data-v-", "data-svelte-",
   "_ngcontent-", "_nghost-", "data-emotion-", "data-styled-", "ng-reflect-"]

/-- Embeds `cleanAttributeValue`: strip one leading framework value token
(the regex alternation `react-|vue-|ng-|svelte-` anchored at the start). -/
def cleanAttributeValue (v : String) : String :=
  if v.startsWith "react-" then v.drop 6
  else if v.startsWith "vue-" then v.drop 4
  else if v.startsWith "ng-" then v.drop 3
  else if v.startsWith "svelte-" then v.drop 7
  else v

/-- Embeds `getAttributeSelector`: first preferred attribute with a non-empty
value whose cleaned value is also non-empty yields `tag[attr="value"]`. -/
def getAttributeSelector (e : ElemData) : Option Sel :=
  DEFAULT_PREFERRED_ATTRIBUTES.findSome? (fun attr =>
    match jsGet e.attrs attr with
    | some v =>
      if v ≠ "" then
        let cleanValue := cleanAttributeValue v
        if cleanValue ≠ "" then some (Sel.attr (lowerStr e.tag) attr cleanValue)
        else none
      else none
    | none => none)

/-- Substring test on character lists (JS `String.includes`). -/
def hasSub (hay sub : List Char) : Bool :=
  match hay with
  | [] => sub.isEmpty
  | _ :: t => sub.isPrefixOf hay || hasSub t sub

/-- Case-insensitive hexadecimal digit. -/
def isHexChar (c : Char) : Bool :=
  c.isDigit || ("abcdefABCDEF".data.contains c)

/-- The hash-pattern test of `isMeaningfulClass`, embedding the regex
`^[a-z]+-[a-f0-9]{6,}$` with the `i` flag: a non-empty alphabetic prefix, a
hyphen, then at least six hex digits to the end. -/
def hashLike (cls : String) : Bool :=
  let alphaPart := cls.data.takeWhile Char.isAlpha
  let rest := cls.data.dropWhile Char.isAlpha
  if alphaPart.isEmpty then false
  else
    match rest with
    | '-' :: hex => decide (hex.length ≥ 6) && hex.all isHexChar
    | _ => false

/-- Embeds `isMeaningfulClass`: rejects classes holding a framework-noise
substring, hash-pattern classes, classes shorter than three characters and
purely numeric classes. -/
def isMeaningfulClass (cls : String) : Bool :=
  if DEFAULT_IGNORED_ATTRIBUTES.any (fun pat => hasSub cls.data pat.data) then false
  else if hashLike cls then false
  else if decide (cls.length < 3) || (!cls.data.isEmpty && cls.data.all Char.isDigit) then false
  else true

/-- Embeds `getClassSelector`: filter to meaningful classes, try each alone,
then the full compound; each candidate is accepted only when unique. -/
def getClassSelector (doc : DomTree) (attached : Bool) (epath : List Nat)
    (e : ElemData) : Option Sel :=
  let classes := e.classes.filter isMeaningfulClass
  if classes.isEmpty then none
  else
    match classes.findSome? (fun c =>
      let s := Sel.cls (lowerStr e.tag) [c]
      if isUnique doc attached epath s then some s else none) with
    | some s => some s
    | none =>
      if classes.length > 1 then
        let s := Sel.cls (lowerStr e.tag) classes
        if isUnique doc attached epath s then some s else none
      else none

/-- The parent path of an element (`parentElement`; `none` above a root). -/
def parentPath (p : List Nat) : Option (List Nat) :=
  match p with
  | [] => none
  | _ => some p.dropLast

/-- The per-level fragment of the structural path: the lower-cased tag,
with `:nth-of-type(n)` appended when the parent has more than one child and
more than one shares the tag; the index counts same-tag siblings up to and
including the element. -/
def levelSel (root : DomTree) (p : List Nat) (cur : ElemData) : String :=
  let base := lowerStr cur.tag
  match p.getLast?, elemAt root p.dropLast with
  | some i, some parentNode =>
    let siblings := parentNode.children
    if decide (siblings.length > 1) then
      let sameType := siblings.filter (fun s => s.data.tag == cur.tag)
      if decide (sameType.length > 1) then
        let index := ((siblings.take i).filter (fun s => s.data.tag == cur.tag)).length + 1
        base ++ ":nth-of-type(" ++ toString index ++ ")"
      else base
    else base
  | _, _ => base

/-- The fragments of the structural path, innermost last, as the loop of
`getStructuralPath` builds them with `unshift`: stop on exhausted depth
budget, on a missing parent, or on reaching the document root element. -/
def structuralList (attached : Bool) (root : DomTree) : Nat → Option (List Nat) → List String
  | 0, _ => []
  | _, none => []
  | Nat.succ fuel, some p =>
    if attached && p.isEmpty then []
    else
      match elemAt root p with
      | none => []
      | some t => structuralList attached root fuel (parentPath p) ++ [levelSel root p t.data]

/-- Embeds `getStructuralPath` with the default depth bound 5: the fragments
joined with the descendant combinator. -/
def getStructuralPath (attached : Bool) (root : DomTree) (epath : List Nat) : String :=
  joinSep " > " (structuralList attached root 5 (some epath))

/-- Embeds `StableSelectorEngine.generate`: attribute tier if unique, else
class tier if unique, else the structural fallback.  The element is the node
`elemAt eroot epath` with data `e`; `attached` states whether `eroot` is the
document. -/
def generate (doc : DomTree) (attached : Bool) (eroot : DomTree) (epath : List Nat)
    (e : ElemData) : String :=
  let attrCase : Option String :=
    match getAttributeSelector e with
    | some s => if isUnique doc attached epath s then some (renderSel s) else none
    | none => none
  match attrCase with
  | some r => r
  | none =>
    let classCase : Option String :=
      match getClassSelector doc attached epath e with
      | some s => if isUnique doc attached epath s then some (renderSel s) else none
      | none => none
    match classCase with
    | some r => r
    | none => getStructuralPath attached eroot epath

/-! ## Concrete instances -/

/-- The end-to-end scenario record of the specification: one click interaction
on selector `button.cta` with the stated before/after styles and no
`transition` key in the diff. -/
def c1rec : TraceRecord :=
  { ts := 0, type := "interaction",
    event := some { kind := "click", selector := "button.cta" },
    before := some
      { dom := { selector := "button.cta", html := "", attributes := [],
                 classes := ["cta"], text := none },
        style := { selector := "button.cta",
                   computed := [("transform", "scale(1)"), ("opacity", "1")] } },
    after := some
      { dom := { selector := "button.cta", html := "", attributes := [],
                 classes := ["cta"], text := none },
        style := { selector := "button.cta",
                   computed := [("transform", "scale(0.95)"), ("opacity", "0.8")] } } }

/-- A record whose style diff holds the key `transition` while the after
snapshot carries no `transition-duration` and no `transition-delay` value. -/
def c6rec : TraceRecord :=
  { ts := 0, type := "interaction",
    event := some { kind := "click", selector := "button.cta" },
    before := some
      { dom := { selector := "button.cta", html := "", attributes := [],
                 classes := ["cta"], text := none },
        style := { selector := "button.cta", computed := [("transition", "none")] } },
    after := some
      { dom := { selector := "button.cta", html := "", attributes := [],
                 classes := ["cta"], text := none },
        style := { selector := "button.cta",
                   computed := [("transition", "all 0.3s ease")] } } }

/-- A record whose only before/after difference is a property present in the
before style snapshot and absent from the after snapshot. -/
def c10rec : TraceRecord :=
  { ts := 0, type := "interaction",
    event := some { kind := "click", selector := "div.box" },
    before := some
      { dom := { selector := "div.box", html := "", attributes := [],
                 classes := ["box"], text := none },
        style := { selector := "div.box",
                   computed := [("opacity", "1"), ("width", "5px")] } },
    after := some
      { dom := { selector := "div.box", html := "", attributes := [],
                 classes := ["box"], text := none },
        style := { selector := "div.box", computed := [("opacity", "1")] } } }

/-- First record for selector `a` in the grouping-order scenario. -/
def recA1 : TraceRecord :=
  { ts := 1, type := "interaction",
    event := some { kind := "click", selector := "a" },
    before := some
      { dom := { selector := "a", html := "", attributes := [], classes := [], text := none },
        style := { selector := "a", computed := [("opacity", "1")] } },
    after := some
      { dom := { selector := "a", html := "", attributes := [], classes := [], text := none },
        style := { selector := "a", computed := [("opacity", "0")] } } }

/-- The record for selector `b` in the grouping-order scenario. -/
def recB : TraceRecord :=
  { ts := 2, type := "interaction",
    event := some { kind := "click", selector := "b" },
    before := some
      { dom := { selector := "b", html := "", attributes := [], classes := [], text := none },
        style := { selector := "b", computed := [("opacity", "1")] } },
    after := some
      { dom := { selector := "b", html := "", attributes := [], classes := [], text := none },
        style := { selector := "b", computed := [("opacity", "0.5")] } } }

/-- Second record for selector `a` in the grouping-order scenario. -/
def recA2 : TraceRecord :=
  { ts := 3, type := "interaction",
    event := some { kind := "focus", selector := "a" },
    before := some
      { dom := { selector := "a", html := "", attributes := [], classes := [], text := none },
        style := { selector := "a", computed := [("width", "1px")] } },
    after := some
      { dom := { selector := "a", html := "", attributes := [], classes := [], text := none },
        style := { selector := "a", computed := [("width", "9px")] } } }

/-- A single class-attribute mutation on one element. -/
def classMut : MutationRec :=
  { targetIsElement := true, targetId := 1, type := "attributes",
    attributeName := some "class" }

/-- A single non-class attribute mutation on one element. -/
def disabledMut : MutationRec :=
  { targetIsElement := true, targetId := 0, type := "attributes",
    attributeName := some "disabled" }

/-- A bare document-root element with no attributes and no classes. -/
def rootElem : ElemData :=
  { tag := "HTML", attrs := [], classes := [] }

/-- A document holding only its root element. -/
def rootOnlyDoc : DomTree :=
  .node rootElem []

/-- A button element carrying a unique id attribute. -/
def btnElem : ElemData :=
  { tag := "BUTTON", attrs := [("id", "go")], classes := [] }

/-- A document whose root has the button as its only child. -/
def btnDoc : DomTree :=
  .node rootElem [.node btnElem []]

/-! ## Helper lemmas -/

theorem string_eq_empty_iff (s : String) : s = "" ↔ s.data = [] := by
  constructor
  · intro h; rw [h]
  · intro h; cases s; simp_all

theorem append_ne_empty_left (a b : String) (ha : a ≠ "") : a ++ b ≠ "" := by
  intro h
  apply ha
  rw [string_eq_empty_iff] at h ⊢
  rw [String.data_append] at h
  exact (List.append_eq_nil.mp h).1

theorem append_ne_empty_right (a b : String) (hb : b ≠ "") : a ++ b ≠ "" := by
  intro h
  apply hb
  rw [string_eq_empty_iff] at h ⊢
  rw [String.data_append] at h
  exact (List.append_eq_nil.mp h).2

theorem lowerStr_ne_empty (s : String) (h : s ≠ "") : lowerStr s ≠ "" := by
  intro hc
  apply h
  rw [string_eq_empty_iff] at hc ⊢
  unfold lowerStr at hc
  simpa using hc

theorem parseFloatZ_empty : parseFloatZ "" = none := rfl

theorem parseFloatZ_ne_empty {s : String} {p : ℤ × ℕ} (h : parseFloatZ s = some p) :
    s ≠ "" := by
  intro he
  subst he
  rw [parseFloatZ_empty] at h
  exact Option.noConfusion h

theorem parseFloatD_ne_empty {s : String} {q : ℤ × ℕ} (h : parseFloatD s = some q) :
    s ≠ "" := by
  rcases hz : parseFloatZ s with _ | p
  · rw [parseFloatD, hz] at h
    exact Option.noConfusion h
  · exact parseFloatZ_ne_empty hz

theorem abs_dyQ (d : ℤ × ℕ) : |dyQ d| = (d.1.natAbs : ℚ) / (2 : ℚ) ^ d.2 := by
  have hD : (0 : ℚ) < (2 : ℚ) ^ d.2 := by positivity
  rw [dyQ, abs_div, abs_of_pos hD, Int.cast_natAbs, Int.cast_abs]

theorem dyadic_ge_one_iff (d : ℤ × ℕ) :
    ((2 : ℕ) ^ d.2 ≤ d.1.natAbs) ↔ (1 : ℚ) ≤ |dyQ d| := by
  have hD : (0 : ℚ) < (2 : ℚ) ^ d.2 := by positivity
  rw [abs_dyQ, le_div_iff₀ hD]
  constructor
  · intro h
    have h2 : (((2 : ℕ) ^ d.2 : ℕ) : ℚ) ≤ ((d.1.natAbs : ℕ) : ℚ) := Nat.cast_le.mpr h
    push_cast at h2 ⊢
    linarith
  · intro h
    have h2 : (((2 : ℕ) ^ d.2 : ℕ) : ℚ) ≤ ((d.1.natAbs : ℕ) : ℚ) := by
      push_cast at h ⊢
      linarith
    exact_mod_cast h2

theorem dyadic_ge_threshold_iff (c d : ℤ × ℕ) (hc : 0 ≤ c.1) :
    (c.1.natAbs * 2 ^ d.2 ≤ d.1.natAbs * 2 ^ c.2) ↔ dyQ c ≤ |dyQ d| := by
  have hD : (0 : ℚ) < (2 : ℚ) ^ d.2 := by positivity
  have hC : (0 : ℚ) < (2 : ℚ) ^ c.2 := by positivity
  have hnn : (0 : ℚ) ≤ (c.1 : ℚ) := by exact_mod_cast hc
  have hcq : dyQ c = (c.1.natAbs : ℚ) / (2 : ℚ) ^ c.2 := by
    rw [dyQ, Int.cast_natAbs, Int.cast_abs, abs_of_nonneg hnn]
  rw [hcq, abs_dyQ, div_le_div_iff₀ hC hD]
  constructor
  · intro h
    have h2 : ((c.1.natAbs * 2 ^ d.2 : ℕ) : ℚ) ≤ ((d.1.natAbs * 2 ^ c.2 : ℕ) : ℚ) :=
      Nat.cast_le.mpr h
    push_cast at h2 ⊢
    linarith
  · intro h
    have h2 : ((c.1.natAbs * 2 ^ d.2 : ℕ) : ℚ) ≤ ((d.1.natAbs * 2 ^ c.2 : ℕ) : ℚ) := by
      push_cast at h ⊢
      linarith
    exact_mod_cast h2

/-! ## Claim theorems -/

/-- Claim C3 counterexample: for width from `0.4px` to `1.4px`, both values
parse as numbers and the exact numeric delta is exactly 1 (so the claim calls
the change significant), but the code computes the delta in binary64 —
`1.4 - 0.4 = 0.9999999999999999 < 1` — and does not report the change. -/
theorem c3_exact_threshold_counterexample :
    isSignificantChange "width" "0.4px" "1.4px" = false ∧
    parseFloatZ "0.4px" = some (4, 1) ∧
    parseFloatZ "1.4px" = some (14, 1) ∧
    (1 : ℚ) ≤ |valQ (14, 1) - valQ (4, 1)| ∧
    computeStyleDiff [("width", "0.4px")] [("width", "1.4px")] = none := by
  refine ⟨by decide, by decide, by decide, ?_, by decide⟩
  norm_num [valQ]

/-- Claim C3 as amended: the significance thresholds are evaluated in
binary64 — for the six position and size properties with both values parsing,
significant exactly when the absolute binary64 delta of the parsed doubles is
at least 1; for opacity, exactly when it is at least the double `0.01`; the
four concrete `diffStyle` scenarios behave as the specification states
(width 100px to 100.5px not reported, 100px to 102px reported, opacity 1 to
0.995 not reported, 1 to 0.97 reported). -/
theorem c3_significance_predicate :
    (∀ p : String,
      (["width", "height", "top", "left", "right", "bottom"] : List String).contains p = true →
      ∀ f t : String, ∀ q r : ℤ × ℕ, parseFloatD f = some q → parseFloatD t = some r →
        (isSignificantChange p f t = true ↔ (1 : ℚ) ≤ |dyQ (deltaD q r)|)) ∧
    (∀ f t : String, ∀ q r : ℤ × ℕ, parseFloatD f = some q → parseFloatD t = some r →
        (isSignificantChange "opacity" f t = true ↔ dyQ dbl01 ≤ |dyQ (deltaD q r)|)) ∧
    computeStyleDiff [("width", "100px")] [("width", "100.5px")] = none ∧
    computeStyleDiff [("width", "100px")] [("width", "102px")] =
      some { selector := "", changes := [("width", "100px", "102px")] } ∧
    computeStyleDiff [("opacity", "1")] [("opacity", "0.995")] = none ∧
    computeStyleDiff [("opacity", "1")] [("opacity", "0.97")] =
      some { selector := "", changes := [("opacity", "1", "0.97")] } := by
  refine ⟨?_, ?_, by decide, by decide, by decide, by decide⟩
  · intro p hp f t q r hf ht
    have hf' : f ≠ "" := parseFloatD_ne_empty hf
    have hp2 : p = "width" ∨ p = "height" ∨ p = "top" ∨ p = "left" ∨ p = "right" ∨
        p = "bottom" := by simpa using hp
    rw [← dyadic_ge_one_iff (deltaD q r)]
    rcases hp2 with h | h | h | h | h | h <;> subst h <;>
      simp [isSignificantChange, hf, ht, hf']
  · intro f t q r hf ht
    have hf' : f ≠ "" := parseFloatD_ne_empty hf
    rw [← dyadic_ge_threshold_iff dbl01 (deltaD q r) (by decide)]
    simp [isSignificantChange, hf, ht, hf']

/-- Claim C3 witness: the significance predicate at the concrete input width
100px to 103px, settled by specialising the theorem. -/
theorem c3_significance_predicate_witness :
    isSignificantChange "width" "100px" "103px" = true :=
  (c3_significance_predicate.1 "width" (by decide) "100px" "103px"
    (roundToDouble 100 1) (roundToDouble 103 1) (by decide) (by decide)).mpr (by
      have hd : deltaD (roundToDouble 100 1) (roundToDouble 103 1) =
          (6755399441055744, 51) := by decide
      rw [hd]
      norm_num [dyQ])

/-- Claim C1 counterexample: on the specification's own end-to-end scenario
input the extraction yields exactly one profile, and its name is not
`click-on-cta` (the last space-separated token of `button.cta` is the whole
selector, so the name is `click-on-button.cta`). -/
theorem c1_profile_name_counterexample :
    (extractProfiles [c1rec]).map AnimationProfile.name = ["click-on-button.cta"] ∧
    ("click-on-button.cta" : String) ≠ "click-on-cta" := by
  decide

/-- Claim C1 as amended: the end-to-end scenario yields exactly one profile
named `click-on-button.cta` with effect type `transition`, the stated
properties, and no timing field. -/
theorem c1_end_to_end_profile :
    extractProfiles [c1rec] =
      [{ name := "click-on-button.cta",
         trigger := { event := "click", selector := "button.cta" },
         effect := { type := "transition", target := "button.cta",
                     properties := [("transform", "scale(1)", "scale(0.95)"),
                                    ("opacity", "1", "0.8")],
                     timing := none } }] := by
  decide

/-- Claim C7 counterexample: a before/after pair with no significant change —
`computeStyleDiff` returns `null` (`none`), not an empty map. -/
theorem c7_empty_map_counterexample :
    computeStyleDiff [("opacity", "0.5")] [("opacity", "0.5")] = none ∧
    computeStyleDiff [("opacity", "0.5")] [("opacity", "0.5")] ≠
      some { selector := "", changes := [] } := by
  decide

/-- Claim C7 as amended: for every before/after style pair in which no
whitelisted property change passes the significance predicate, the style diff
operation returns `null` (`none`), not an empty map. -/
theorem c7_null_when_insignificant (b a : List (String × String))
    (h : ∀ p ∈ MEANINGFUL_STYLE_PROPERTIES,
      getPV b p = getPV a p ∨ isSignificantChange p (getPV b p) (getPV a p) = false) :
    computeStyleDiff b a = none := by
  have hnil : MEANINGFUL_STYLE_PROPERTIES.filterMap (fun prop =>
      if getPV b prop ≠ getPV a prop && isSignificantChange prop (getPV b prop) (getPV a prop)
      then some (prop, getPV b prop, getPV a prop) else none) = [] := by
    rw [List.filterMap_eq_nil_iff]
    intro p hp
    rcases h p hp with h1 | h1
    · simp [h1]
    · simp [h1]
  simp only [computeStyleDiff]
  rw [hnil]
  rfl

/-- Claim C7 witness: the amended theorem applied at a concrete insignificant
opacity change. -/
theorem c7_null_when_insignificant_witness :
    computeStyleDiff [("opacity", "1")] [("opacity", "0.999")] = none :=
  c7_null_when_insignificant [("opacity", "1")] [("opacity", "0.999")] (by decide)

theorem mstep_affected (st : MState) (m : MutationRec) :
    (mstep st m).affected = affStep st.affected m := by
  by_cases h : m.type = "attributes"
  · simp [mstep, h]
  · by_cases h2 : m.type = "childList" <;> simp [mstep, h, h2]

theorem mstep_hasAttr (st : MState) (m : MutationRec) :
    (mstep st m).hasAttr = (st.hasAttr || (m.type == "attributes")) := by
  by_cases h : m.type = "attributes"
  · simp [mstep, h]
  · by_cases h2 : m.type = "childList" <;> simp [mstep, h, h2]

theorem mstep_hasChild (st : MState) (m : MutationRec) :
    (mstep st m).hasChild = (st.hasChild || (m.type == "childList")) := by
  by_cases h : m.type = "attributes"
  · simp [mstep, h]
  · by_cases h2 : m.type = "childList" <;> simp [mstep, h, h2]

theorem mstep_hasClass (st : MState) (m : MutationRec) :
    (mstep st m).hasClass =
      (st.hasClass || ((m.type == "attributes") && (m.attributeName == some "class"))) := by
  by_cases h : m.type = "attributes"
  · simp [mstep, h]
  · by_cases h2 : m.type = "childList" <;> simp [mstep, h, h2]

theorem foldl_mstep_affected (l : List MutationRec) :
    ∀ st : MState, (l.foldl mstep st).affected = l.foldl affStep st.affected := by
  induction l with
  | nil => intro st; rfl
  | cons m t ih =>
    intro st
    simp only [List.foldl_cons, ih, mstep_affected]

theorem foldl_mstep_hasAttr (l : List MutationRec) :
    ∀ st : MState,
      (l.foldl mstep st).hasAttr = (st.hasAttr || l.any (fun m => m.type == "attributes")) := by
  induction l with
  | nil => intro st; simp
  | cons m t ih =>
    intro st
    simp only [List.foldl_cons, List.any_cons, ih, mstep_hasAttr, Bool.or_assoc]

theorem foldl_mstep_hasChild (l : List MutationRec) :
    ∀ st : MState,
      (l.foldl mstep st).hasChild = (st.hasChild || l.any (fun m => m.type == "childList")) := by
  induction l with
  | nil => intro st; simp
  | cons m t ih =>
    intro st
    simp only [List.foldl_cons, List.any_cons, ih, mstep_hasChild, Bool.or_assoc]

theorem foldl_mstep_hasClass (l : List MutationRec) :
    ∀ st : MState,
      (l.foldl mstep st).hasClass =
        (st.hasClass ||
          l.any (fun m => (m.type == "attributes") && (m.attributeName == some "class"))) := by
  induction l with
  | nil => intro st; simp
  | cons m t ih =>
    intro st
    simp only [List.foldl_cons, List.any_cons, ih, mstep_hasClass, Bool.or_assoc]

theorem mem_foldl_affStep_of_mem (l : List MutationRec) :
    ∀ (acc : List Nat) (x : Nat), x ∈ acc → x ∈ l.foldl affStep acc := by
  induction l with
  | nil => intro acc x h; exact h
  | cons m t ih =>
    intro acc x h
    apply ih
    unfold affStep
    split
    · exact List.mem_append_left _ h
    · exact h

theorem targetId_mem_foldl_affStep (l : List MutationRec) :
    ∀ (acc : List Nat) (m : MutationRec), m ∈ l → m.targetIsElement = true →
      m.targetId ∈ l.foldl affStep acc := by
  induction l with
  | nil => intro acc m h; exact absurd h (List.not_mem_nil _)
  | cons a t ih =>
    intro acc m h hel
    rcases List.mem_cons.mp h with rfl | h2
    · rw [List.foldl_cons]
      apply mem_foldl_affStep_of_mem
      unfold affStep
      rw [hel]
      by_cases hc : m.targetId ∈ acc <;> simp [hc]
    · exact ih _ m h2 hel

theorem affected_length_pos (l : List MutationRec) (m : MutationRec) (hm : m ∈ l)
    (hel : m.targetIsElement = true) : 0 < (l.foldl affStep ([] : List Nat)).length :=
  List.length_pos.mpr (List.ne_nil_of_mem (targetId_mem_foldl_affStep l [] m hm hel))

/-- Claim C4: the mutation compressor classifies by the spec priority order
(class-and-no-childList, childList with one affected element, childList with
several, otherwise non-class attribute change, otherwise unknown), is total,
and maps the empty batch to unknown with affectedElementCount 0.
Well-formedness hypothesis: attribute mutations target elements (in the DOM an
attribute mutation always targets an `Element`). -/
theorem c4_compress_classification (muts : List MutationRec)
    (hwf : ∀ m ∈ muts, m.type = "attributes" → m.targetIsElement = true) :
    (compressMutations muts).intent = claimIntent muts ∧
    (compressMutations muts).affectedElements = claimAffectedCount muts ∧
    compressMutations [] =
      { intent := "unknown", summary := "0 mutations on 0 elements",
        affectedElements := 0 } := by
  refine ⟨?_, by simp [compressMutations, claimAffectedCount, affectedList,
    foldl_mstep_affected], by decide⟩
  simp only [compressMutations, claimIntent, claimHasClass, claimHasChild,
    claimHasOtherAttr, claimAffectedCount, affectedList,
    foldl_mstep_affected, foldl_mstep_hasAttr, foldl_mstep_hasChild,
    foldl_mstep_hasClass, Bool.false_or]
  by_cases h1 :
      ((muts.any fun m => (m.type == "attributes") && (m.attributeName == some "class")) &&
        !(muts.any fun m => m.type == "childList")) = true
  · simp only [h1, if_pos]
  · have h1f := Bool.eq_false_iff.mpr h1
    simp only [h1f, Bool.false_eq_true, if_false]
    by_cases h2 :
        ((muts.any fun m => m.type == "childList") &&
          ((List.foldl affStep [] muts).length == 1)) = true
    · simp only [h2, if_pos]
    · have h2f := Bool.eq_false_iff.mpr h2
      simp only [h2f, Bool.false_eq_true, if_false]
      by_cases h3 :
          ((muts.any fun m => m.type == "childList") &&
            decide ((List.foldl affStep [] muts).length > 1)) = true
      · simp only [h3, if_pos]
      · have h3f := Bool.eq_false_iff.mpr h3
        simp only [h3f, Bool.false_eq_true, if_false]
        have hAO : (muts.any fun m => m.type == "attributes") =
            (muts.any fun m => (m.type == "attributes") && (m.attributeName != some "class")) := by
          by_cases hC : (muts.any fun m => m.type == "childList") = true
          · -- childList present: the two failed count branches force zero affected
            -- elements, so no element-targeted mutation exists, so no
            -- attribute mutation exists at all.
            have hn1 : ((List.foldl affStep [] muts).length == 1) = false := by
              rcases Bool.and_eq_false_iff.mp h2f with h | h
              · rw [hC] at h; exact absurd h (by decide)
              · exact h
            have hn2 : decide ((List.foldl affStep [] muts).length > 1) = false := by
              rcases Bool.and_eq_false_iff.mp h3f with h | h
              · rw [hC] at h; exact absurd h (by decide)
              · exact h
            have hn0 : (List.foldl affStep [] muts).length = 0 := by
              have a1 : (List.foldl affStep [] muts).length ≠ 1 := by
                intro he; rw [he] at hn1; exact absurd hn1 (by decide)
              have a2 : ¬ ((List.foldl affStep [] muts).length > 1) :=
                of_decide_eq_false hn2
              omega
            have hA : (muts.any fun m => m.type == "attributes") = false := by
              rw [Bool.eq_false_iff]
              intro hA
              obtain ⟨m, hm, hmt⟩ := List.any_eq_true.mp hA
              have hel := hwf m hm (by simpa using hmt)
              have hpos := affected_length_pos muts m hm hel
              omega
            have hO : (muts.any fun m =>
                (m.type == "attributes") && (m.attributeName != some "class")) = false := by
              rw [Bool.eq_false_iff]
              intro hO
              obtain ⟨m, hm, hmt⟩ := List.any_eq_true.mp hO
              have hA2 : (muts.any fun m => m.type == "attributes") = true :=
                List.any_eq_true.mpr ⟨m, hm, by
                  rw [Bool.and_eq_true] at hmt
                  exact hmt.1⟩
              rw [hA2] at hA
              exact absurd hA (by decide)
            rw [hA, hO]
          · -- no childList mutation: the failed first branch forces no class
            -- mutation, so every attribute mutation is a non-class one.
            have hCf := Bool.eq_false_iff.mpr hC
            have hK : (muts.any fun m =>
                (m.type == "attributes") && (m.attributeName == some "class")) = false := by
              rcases Bool.and_eq_false_iff.mp h1f with h | h
              · exact h
              · rw [hCf] at h; exact absurd h (by decide)
            cases hA : (muts.any fun m => m.type == "attributes") with
            | false =>
              symm
              rw [Bool.eq_false_iff]
              intro hO
              obtain ⟨m, hm, hmt⟩ := List.any_eq_true.mp hO
              have hA2 : (muts.any fun m => m.type == "attributes") = true :=
                List.any_eq_true.mpr ⟨m, hm, by
                  rw [Bool.and_eq_true] at hmt
                  exact hmt.1⟩
              rw [hA2] at hA
              exact absurd hA (by decide)
            | true =>
              symm
              obtain ⟨m, hm, hmt⟩ := List.any_eq_true.mp hA
              have hcls : (m.attributeName == some "class") = false := by
                rw [Bool.eq_false_iff]
                intro hc
                have : (muts.any fun m =>
                    (m.type == "attributes") && (m.attributeName == some "class")) = true :=
                  List.any_eq_true.mpr ⟨m, hm, by rw [hmt, hc]; rfl⟩
                rw [this] at hK
                exact absurd hK (by decide)
              exact List.any_eq_true.mpr ⟨m, hm, by
                rw [hmt, bne, hcls]
                rfl⟩
        rw [hAO]

/-- Claim C4 witness: the classification theorem applied to a concrete batch
of one class-attribute mutation on one element. -/
theorem c4_compress_classification_witness :
    (compressMutations [classMut]).intent = claimIntent [classMut] :=
  (c4_compress_classification [classMut] (by decide)).1

theorem foldl_istep_affected (l : List MutationRec) :
    ∀ st : IState, (l.foldl istep st).affected = l.foldl affStep st.affected := by
  induction l with
  | nil => intro st; rfl
  | cons m t ih =>
    intro st
    simp only [List.foldl_cons, ih]
    rfl

theorem foldl_istep_hasClass (l : List MutationRec) :
    ∀ st : IState,
      (l.foldl istep st).hasClass =
        (st.hasClass ||
          l.any (fun m => (m.type == "attributes") && (m.attributeName == some "class"))) := by
  induction l with
  | nil => intro st; simp
  | cons m t ih =>
    intro st
    simp only [List.foldl_cons, List.any_cons, ih, istep, Bool.or_assoc]

theorem foldl_istep_hasChild (l : List MutationRec) :
    ∀ st : IState,
      (l.foldl istep st).hasChild = (st.hasChild || l.any (fun m => m.type == "childList")) := by
  induction l with
  | nil => intro st; simp
  | cons m t ih =>
    intro st
    simp only [List.foldl_cons, List.any_cons, ih, istep, Bool.or_assoc]

/-- Claim C9 counterexample: on a batch holding a single non-class attribute
mutation, the canonical compressor reports `attribute-change` while the inline
re-vendored form reports `unknown` — the two engines are not equivalent. -/
theorem c9_inline_divergence_counterexample :
    (compressMutations [disabledMut]).intent = "attribute-change" ∧
    (inlineCompressMutations [disabledMut]).intent = "unknown" ∧
    (compressMutations [disabledMut]).intent ≠ (inlineCompressMutations [disabledMut]).intent := by
  decide

/-- Claim C9 as amended: the canonical and inline compressors agree on
`affectedElementCount` and on the summary for every batch, and agree on the
intent for every batch in which every mutation targets an element and every
attribute mutation is a class mutation; they differ otherwise (see the
counterexample). -/
theorem c9_inline_agreement :
    (∀ muts : List MutationRec,
      (compressMutations muts).affectedElements =
        (inlineCompressMutations muts).affectedElements ∧
      (compressMutations muts).summary = (inlineCompressMutations muts).summary) ∧
    (∀ muts : List MutationRec,
      (∀ m ∈ muts, m.targetIsElement = true) →
      (∀ m ∈ muts, m.type = "attributes" → m.attributeName = some "class") →
      (compressMutations muts).intent = (inlineCompressMutations muts).intent) := by
  constructor
  · intro muts
    constructor
    · simp [compressMutations, inlineCompressMutations, foldl_mstep_affected,
        foldl_istep_affected]
    · simp [compressMutations, inlineCompressMutations, foldl_mstep_affected,
        foldl_istep_affected]
  · intro muts hel hcls
    simp only [compressMutations, inlineCompressMutations,
      foldl_mstep_affected, foldl_istep_affected,
      foldl_mstep_hasAttr, foldl_mstep_hasChild, foldl_mstep_hasClass,
      foldl_istep_hasClass, foldl_istep_hasChild, Bool.false_or]
    by_cases h1 :
        ((muts.any fun m => (m.type == "attributes") && (m.attributeName == some "class")) &&
          !(muts.any fun m => m.type == "childList")) = true
    · simp only [h1, if_pos]
    · have h1f := Bool.eq_false_iff.mpr h1
      simp only [h1f, Bool.false_eq_true, if_false]
      by_cases h2 :
          ((muts.any fun m => m.type == "childList") &&
            ((List.foldl affStep [] muts).length == 1)) = true
      · simp only [h2, if_pos]
      · have h2f := Bool.eq_false_iff.mpr h2
        simp only [h2f, Bool.false_eq_true, if_false]
        by_cases hC : (muts.any fun m => m.type == "childList") = true
        · -- childList present with at least one element target: the count is
          -- positive, and the failed one-element branch forces it above one.
          obtain ⟨m, hm, hmt⟩ := List.any_eq_true.mp hC
          have hpos := affected_length_pos muts m hm (hel m hm)
          have hn1 : ((List.foldl affStep [] muts).length == 1) = false := by
            rcases Bool.and_eq_false_iff.mp h2f with h | h
            · rw [hC] at h; exact absurd h (by decide)
            · exact h
          have hgt : decide ((List.foldl affStep [] muts).length > 1) = true := by
            rw [decide_eq_true_eq]
            have a1 : (List.foldl affStep [] muts).length ≠ 1 := by
              intro he; rw [he] at hn1; exact absurd hn1 (by decide)
            omega
          rw [hC, hgt]
          simp
        · -- no childList mutation: the canonical attribute branch cannot fire
          -- because every attribute mutation is a class one and the class
          -- branch already failed.
          have hCf := Bool.eq_false_iff.mpr hC
          have hK : (muts.any fun m =>
              (m.type == "attributes") && (m.attributeName == some "class")) = false := by
            rcases Bool.and_eq_false_iff.mp h1f with h | h
            · exact h
            · rw [hCf] at h; exact absurd h (by decide)
          have hA : (muts.any fun m => m.type == "attributes") = false := by
            rw [Bool.eq_false_iff]
            intro hA
            obtain ⟨m, hm, hmt⟩ := List.any_eq_true.mp hA
            have hc2 := hcls m hm (by simpa using hmt)
            have : (muts.any fun m =>
                (m.type == "attributes") && (m.attributeName == some "class")) = true :=
              List.any_eq_true.mpr ⟨m, hm, by rw [hmt, hc2]; rfl⟩
            rw [this] at hK
            exact absurd hK (by decide)
          rw [hCf, hA]
          simp

/-- Claim C9 witness: the agreement theorem applied to a concrete batch of one
class mutation on one element. -/
theorem c9_inline_agreement_witness :
    (compressMutations [classMut]).intent = (inlineCompressMutations [classMut]).intent :=
  c9_inline_agreement.2 [classMut] (by decide) (by decide)

/-- Claim C6 counterexample: a qualifying record whose style diff holds the
key `transition` while the after snapshot has no `transition-delay` value —
the emitted timing carries `delay = "0s"`; the delay field is not omitted. -/
theorem c6_delay_omitted_counterexample :
    (findConsistentStyleChanges [c6rec]).map (fun c => c.effect.timing) =
      [some { duration := "0s", easing := some "ease", delay := some "0s" }] ∧
    (some "0s" : Option String) ≠ none := by
  decide

/-- Claim C6 as amended: for every qualifying interaction record the profile
carries a timing object exactly when the style diff holds the key
`transition`; duration and easing come from the after snapshot defaulting to
`0s` and `ease`, and delay likewise comes from the after snapshot defaulting
to `0s` — it is never omitted. -/
theorem c6_timing_extraction (t : TraceRecord) (ev : InteractionEvent) (b a : SnapPair)
    (hev : t.event = some ev) (hb : t.before = some b) (ha : t.after = some a)
    (hne : computeProperties b.style.computed a.style.computed ≠ []) :
    ∃ c : StyleChange, findConsistentStyleChanges [t] = [c] ∧
      (c.effect.timing.isSome =
        (propsGet (computeProperties b.style.computed a.style.computed) "transition").isSome) ∧
      (∀ tm : Timing, c.effect.timing = some tm →
        tm.duration = jsOr (jsGet a.style.computed "transition-duration") "0s" ∧
        tm.easing = some (jsOr (jsGet a.style.computed "transition-timing-function") "ease") ∧
        tm.delay = some (jsOr (jsGet a.style.computed "transition-delay") "0s")) := by
  have hlen : 0 < (computeProperties b.style.computed a.style.computed).length :=
    List.length_pos.mpr hne
  simp only [findConsistentStyleChanges, List.filterMap_cons, List.filterMap_nil,
    hev, hb, ha, hlen, gt_iff_lt, if_true, if_pos]
  refine ⟨_, rfl, ?_, ?_⟩
  · by_cases h : (propsGet (computeProperties b.style.computed a.style.computed)
        "transition").isSome = true
    · simp [h]
    · simp only [Bool.not_eq_true] at h
      simp [h]
  · intro tm htm
    by_cases h : (propsGet (computeProperties b.style.computed a.style.computed)
        "transition").isSome = true
    · simp only [h, if_pos, if_true] at htm
      have := Option.some.inj htm
      rw [← this]
      exact ⟨rfl, rfl, rfl⟩
    · simp only [Bool.not_eq_true] at h
      simp [h] at htm

/-- Claim C6 witness: the timing theorem applied at the concrete record whose
diff holds `transition` and whose after snapshot has no duration or delay. -/
theorem c6_timing_extraction_witness :
    ∃ c : StyleChange, findConsistentStyleChanges [c6rec] = [c] ∧
      (c.effect.timing.isSome =
        (propsGet (computeProperties [("transition", "none")] [("transition", "all 0.3s ease")])
          "transition").isSome) ∧
      (∀ tm : Timing, c.effect.timing = some tm →
        tm.duration =
          jsOr (jsGet [("transition", "all 0.3s ease")] "transition-duration") "0s" ∧
        tm.easing =
          some (jsOr (jsGet [("transition", "all 0.3s ease")] "transition-timing-function")
            "ease") ∧
        tm.delay =
          some (jsOr (jsGet [("transition", "all 0.3s ease")] "transition-delay") "0s")) :=
  c6_timing_extraction c6rec
    { kind := "click", selector := "button.cta" }
    { dom := { selector := "button.cta", html := "", attributes := [],
               classes := ["cta"], text := none },
      style := { selector := "button.cta", computed := [("transition", "none")] } }
    { dom := { selector := "button.cta", html := "", attributes := [],
               classes := ["cta"], text := none },
      style := { selector := "button.cta", computed := [("transition", "all 0.3s ease")] } }
    rfl rfl rfl (by decide)

/-- Claim C10: the properties map of a profile only holds keys of the after
style snapshot (a property present before and absent after is never
reported), and a record whose after-snapshot values all agree with the before
snapshot produces no profile. -/
theorem c10_properties_subset_after :
    (∀ (b a : List (String × String)) (k : String),
        k ∈ (computeProperties b a).map Prod.fst → k ∈ a.map Prod.fst) ∧
    (∀ t : TraceRecord,
        (∀ b a, t.before = some b → t.after = some a →
          ∀ pv ∈ a.style.computed, jsGet b.style.computed pv.1 = some pv.2) →
        extractProfiles [t] = []) := by
  constructor
  · intro b a k hk
    rw [List.mem_map] at hk
    obtain ⟨x, hx, hfst⟩ := hk
    simp only [computeProperties, List.mem_filterMap] at hx
    obtain ⟨pv, hpv, hf⟩ := hx
    by_cases hc : jsGet b pv.1 = some pv.2
    · rw [if_pos hc] at hf
      exact absurd hf (by simp)
    · rw [if_neg hc] at hf
      have hx1 : x.1 = pv.1 := by
        rw [← Option.some.inj hf]
      rw [List.mem_map]
      exact ⟨pv, hpv, by rw [← hfst, hx1]⟩
  · intro t h
    rcases hev : t.event with _ | ev
    · simp [extractProfiles, groupBySelector, gstep, interactionSel, hev]
    · have hchanges : findConsistentStyleChanges [t] = [] := by
        rcases hb : t.before with _ | b
        · simp [findConsistentStyleChanges, hev, hb]
        · rcases ha : t.after with _ | a
          · simp [findConsistentStyleChanges, hev, hb, ha]
          · have hprops : computeProperties b.style.computed a.style.computed = [] := by
              rw [computeProperties, List.filterMap_eq_nil_iff]
              intro pv hpv
              rw [if_pos (h b a hb ha pv hpv)]
            simp [findConsistentStyleChanges, hev, hb, ha, hprops]
      by_cases ht : t.type = "interaction"
      · simp [extractProfiles, groupBySelector, gstep, interactionSel, hev, ht, groupInsert,
          profilesForGroup, hchanges]
      · simp [extractProfiles, groupBySelector, gstep, interactionSel, hev, ht]

/-- Claim C10 witness: the no-profile theorem applied at the concrete record
whose only difference is a property that disappeared from the after
snapshot. -/
theorem c10_properties_subset_after_witness :
    extractProfiles [c10rec] = [] := by
  apply c10_properties_subset_after.2 c10rec
  intro b a hb ha
  have hb2 := Option.some.inj hb
  have ha2 := Option.some.inj ha
  rw [← hb2, ← ha2]
  decide

theorem renderSel_ne_empty (s : Sel) : renderSel s ≠ "" := by
  cases s with
  | attr tag a v =>
    unfold renderSel
    apply append_ne_empty_right
    decide
  | cls tag cs =>
    unfold renderSel
    apply append_ne_empty_left
    apply append_ne_empty_right
    decide

theorem joinSep_snoc_ne_empty (l : List String) (x : String) (hx : x ≠ "") :
    joinSep " > " (l ++ [x]) ≠ "" := by
  cases l with
  | nil => simpa [joinSep] using hx
  | cons y ys =>
    rw [List.cons_append]
    cases h : ys ++ [x] with
    | nil => exact absurd h (by simp)
    | cons z zs =>
      show y ++ " > " ++ joinSep " > " (z :: zs) ≠ ""
      apply append_ne_empty_left
      apply append_ne_empty_right
      decide

theorem levelSel_ne_empty (root : DomTree) (p : List Nat) (cur : ElemData)
    (htag : cur.tag ≠ "") : levelSel root p cur ≠ "" := by
  have hbase := lowerStr_ne_empty cur.tag htag
  unfold levelSel
  rcases hL : p.getLast? with _ | i <;>
    rcases hE : elemAt root p.dropLast with _ | pn <;>
    simp only []
  · exact hbase
  · exact hbase
  · exact hbase
  · split
    · split
      · apply append_ne_empty_right
        decide
      · exact hbase
    · exact hbase

theorem structuralList_snoc (attached : Bool) (root : DomTree) (epath : List Nat)
    (t : DomTree) (helem : elemAt root epath = some t)
    (hroot : ¬(attached = true ∧ epath = [])) (fuel : Nat) :
    structuralList attached root (Nat.succ fuel) (some epath) =
      structuralList attached root fuel (parentPath epath) ++ [levelSel root epath t.data] := by
  have hcond : (attached && epath.isEmpty) = false := by
    cases attached with
    | false => rfl
    | true =>
      have hne : epath ≠ [] := fun he => hroot ⟨rfl, he⟩
      simp [hne]
  rw [structuralList]
  rw [hcond]
  simp only [Bool.false_eq_true, if_false, helem]

theorem getStructuralPath_ne_empty (attached : Bool) (eroot : DomTree)
    (epath : List Nat) (t : DomTree) (helem : elemAt eroot epath = some t)
    (htag : t.data.tag ≠ "") (hroot : ¬(attached = true ∧ epath = [])) :
    getStructuralPath attached eroot epath ≠ "" := by
  unfold getStructuralPath
  rw [show (5 : Nat) = Nat.succ 4 from rfl,
    structuralList_snoc attached eroot epath t helem hroot 4]
  exact joinSep_snoc_ne_empty _ _ (levelSel_ne_empty eroot epath t.data htag)

/-- Claim C2 counterexample: on a document whose root element carries no
attribute and no class, `generate` applied to the document root element
returns the empty string (the structural loop stops immediately at the
document element), refuting non-emptiness for every element. -/
theorem c2_root_empty_selector_counterexample :
    generate rootOnlyDoc true rootOnlyDoc [] rootElem = "" := rfl

/-- Claim C2 as amended: `generate` is a total function (never raises; every
uniqueness query failure falls through to the structural tier), and it returns
a non-empty string for every element other than the document root element —
for a detached element, and for every attached element with a non-empty path.
For the document root element itself the structural fallback can be the empty
string (see the counterexample). -/
theorem c2_generate_nonempty (doc : DomTree) (attached : Bool) (eroot : DomTree)
    (epath : List Nat) (t : DomTree)
    (helem : elemAt eroot epath = some t) (htag : t.data.tag ≠ "")
    (hroot : ¬(attached = true ∧ epath = [])) :
    generate doc attached eroot epath t.data ≠ "" := by
  have hstruct := getStructuralPath_ne_empty attached eroot epath t helem htag hroot
  rcases hA : getAttributeSelector t.data with _ | s
  · simp only [generate, hA]
    rcases hC : getClassSelector doc attached epath t.data with _ | s2
    · exact hstruct
    · by_cases hU : isUnique doc attached epath s2 = true
      · simp only [hU, if_true, if_pos]
        exact renderSel_ne_empty s2
      · have hUf := Bool.eq_false_iff.mpr hU
        simp only [hUf, Bool.false_eq_true, if_false]
        exact hstruct
  · simp only [generate, hA]
    by_cases hU : isUnique doc attached epath s = true
    · simp only [hU, if_true, if_pos]
      exact renderSel_ne_empty s
    · have hUf := Bool.eq_false_iff.mpr hU
      simp only [hUf, Bool.false_eq_true, if_false]
      rcases hC : getClassSelector doc attached epath t.data with _ | s2
      · exact hstruct
      · by_cases hU2 : isUnique doc attached epath s2 = true
        · simp only [hU2, if_true, if_pos]
          exact renderSel_ne_empty s2
        · have hU2f := Bool.eq_false_iff.mpr hU2
          simp only [hU2f, Bool.false_eq_true, if_false]
          exact hstruct

/-- Claim C2 witness: the non-emptiness theorem applied to the button child of
the two-element document. -/
theorem c2_generate_nonempty_witness :
    generate btnDoc true btnDoc [0] (DomTree.node btnElem []).data ≠ "" :=
  c2_generate_nonempty btnDoc true btnDoc [0] (DomTree.node btnElem []) rfl
    (by decide) (by simp)

theorem isUnique_eq_true_iff (doc : DomTree) (attached : Bool) (epath : List Nat)
    (s : Sel) (h : isUnique doc attached epath s = true) :
    qsaE doc s = Except.ok [epath] ∧ attached = true := by
  unfold isUnique at h
  rcases hq : qsaE doc s with e | l
  · rw [hq] at h
    exact Bool.noConfusion h
  · rw [hq] at h
    rcases l with _ | ⟨p, rest⟩
    · exact Bool.noConfusion h
    · rcases rest with _ | ⟨p2, rest2⟩
      · rw [Bool.and_eq_true] at h
        obtain ⟨h1, h2⟩ := h
        have hp : p = epath := eq_of_beq h2
        subst hp
        exact ⟨rfl, h1⟩
      · exact Bool.noConfusion h

theorem getClassSelector_isUnique (doc : DomTree) (attached : Bool) (epath : List Nat)
    (e : ElemData) (s : Sel) (h : getClassSelector doc attached epath e = some s) :
    isUnique doc attached epath s = true := by
  unfold getClassSelector at h
  by_cases hemp : (e.classes.filter isMeaningfulClass).isEmpty = true
  · rw [if_pos hemp] at h
    exact Option.noConfusion h
  · rw [if_neg hemp] at h
    rcases hfs : (e.classes.filter isMeaningfulClass).findSome? (fun c =>
        if isUnique doc attached epath (Sel.cls (lowerStr e.tag) [c]) = true then
          some (Sel.cls (lowerStr e.tag) [c])
        else none) with _ | s0
    · rw [hfs] at h
      by_cases hlen : (e.classes.filter isMeaningfulClass).length > 1
      · rw [if_pos hlen] at h
        by_cases hU : isUnique doc attached epath
            (Sel.cls (lowerStr e.tag) (e.classes.filter isMeaningfulClass)) = true
        · rw [if_pos hU] at h
          rw [← Option.some.inj h]
          exact hU
        · rw [if_neg hU] at h
          exact Option.noConfusion h
      · rw [if_neg hlen] at h
        exact Option.noConfusion h
    · rw [hfs] at h
      have hs0 : s0 = s := Option.some.inj h
      subst hs0
      obtain ⟨c, hc, hfc⟩ := List.exists_of_findSome?_eq_some hfs
      by_cases hU : isUnique doc attached epath (Sel.cls (lowerStr e.tag) [c]) = true
      · rw [if_pos hU] at hfc
        rw [← Option.some.inj hfc]
        exact hU
      · rw [if_neg hU] at hfc
        exact Option.noConfusion hfc

/-- Claim C5: whenever `generate` returns a selector produced by the attribute
tier or the class tier (not the structural fallback), querying the document
with that selector yields exactly one match, and the match is the element the
selector was generated for (the element is attached and the single result path
is its own). -/
theorem c5_tier_selector_unique (doc : DomTree) (attached : Bool) (eroot : DomTree)
    (epath : List Nat) (e : ElemData) (s : Sel)
    (h : (getAttributeSelector e = some s ∧ isUnique doc attached epath s = true) ∨
         ((∀ s2, getAttributeSelector e = some s2 → isUnique doc attached epath s2 = false) ∧
          getClassSelector doc attached epath e = some s)) :
    generate doc attached eroot epath e = renderSel s ∧
    qsaE doc s = Except.ok [epath] ∧ attached = true := by
  rcases h with ⟨hA, hU⟩ | ⟨hA, hC⟩
  · have hiso := isUnique_eq_true_iff doc attached epath s hU
    refine ⟨?_, hiso.1, hiso.2⟩
    simp only [generate, hA, hU, if_true, if_pos]
  · have hU := getClassSelector_isUnique doc attached epath e s hC
    have hiso := isUnique_eq_true_iff doc attached epath s hU
    refine ⟨?_, hiso.1, hiso.2⟩
    rcases hA2 : getAttributeSelector e with _ | s2
    · simp only [generate, hA2, hC, hU, if_true, if_pos]
    · have hA2f := hA s2 hA2
      simp only [generate, hA2, hA2f, Bool.false_eq_true, if_false, hC, hU, if_true, if_pos]

/-- Claim C5 witness: the uniqueness theorem applied to the button element of
the two-element document, whose id attribute yields the attribute-tier
selector. -/
theorem c5_tier_selector_unique_witness :
    generate btnDoc true btnDoc [0] btnElem = renderSel (Sel.attr "button" "id" "go") ∧
    qsaE btnDoc (Sel.attr "button" "id" "go") = Except.ok [[0]] ∧ true = true :=
  c5_tier_selector_unique btnDoc true btnDoc [0] btnElem (Sel.attr "button" "id" "go")
    (Or.inl ⟨by decide, rfl⟩)

theorem groupInsert_not_mem (acc : List (String × List TraceRecord)) (sel : String)
    (t : TraceRecord) (h : ¬ sel ∈ acc.map Prod.fst) :
    groupInsert acc sel t = acc ++ [(sel, [t])] := by
  induction acc with
  | nil => rfl
  | cons g rest ih =>
    have h1 : ¬ (g.1 = sel) := fun he => h (by rw [← he]; exact List.mem_map_of_mem Prod.fst (List.mem_cons_self g rest))
    have h2 : ¬ sel ∈ rest.map Prod.fst := fun hm => h (by rw [List.map_cons]; exact List.mem_cons_of_mem _ hm)
    simp only [groupInsert, if_neg h1, ih h2, List.cons_append]

theorem groupInsert_mem (acc : List (String × List TraceRecord)) (sel : String)
    (t : TraceRecord) (hnd : (acc.map Prod.fst).Nodup) (h : sel ∈ acc.map Prod.fst) :
    groupInsert acc sel t =
      acc.map (fun g => if g.1 = sel then (g.1, g.2 ++ [t]) else g) := by
  induction acc with
  | nil => exact absurd h (List.not_mem_nil sel)
  | cons g rest ih =>
    rw [List.map_cons, List.nodup_cons] at hnd
    obtain ⟨hg, hndr⟩ := hnd
    by_cases hgs : g.1 = sel
    · subst hgs
      have hrest : rest.map (fun x => if x.1 = g.1 then (x.1, x.2 ++ [t]) else x) = rest := by
        have hcong : ∀ x ∈ rest, (if x.1 = g.1 then (x.1, x.2 ++ [t]) else x) = id x := by
          intro x hx
          have hne : ¬ (x.1 = g.1) := fun he => hg (he ▸ List.mem_map_of_mem Prod.fst hx)
          simp [hne]
        rw [List.map_congr_left hcong, List.map_id]
      simp only [groupInsert, if_pos rfl, List.map_cons, hrest]
      simp
    · have h2 : sel ∈ rest.map Prod.fst := by
        rcases List.mem_cons.mp h with he | hm
        · exact absurd he.symm hgs
        · exact hm
      simp only [groupInsert, if_neg hgs, ih hndr h2, List.map_cons]

theorem groupInsert_keys_mem (acc : List (String × List TraceRecord)) (sel : String)
    (t : TraceRecord) (hnd : (acc.map Prod.fst).Nodup) (h : sel ∈ acc.map Prod.fst) :
    (groupInsert acc sel t).map Prod.fst = acc.map Prod.fst := by
  rw [groupInsert_mem acc sel t hnd h, List.map_map]
  apply List.map_congr_left
  intro x hx
  by_cases hxs : x.1 = sel <;> simp [hxs]

theorem groupInsert_keys_not_mem (acc : List (String × List TraceRecord)) (sel : String)
    (t : TraceRecord) (h : ¬ sel ∈ acc.map Prod.fst) :
    (groupInsert acc sel t).map Prod.fst = acc.map Prod.fst ++ [sel] := by
  rw [groupInsert_not_mem acc sel t h, List.map_append]
  rfl

theorem selFilter_cons_none (s : String) (t : TraceRecord) (l : List TraceRecord)
    (ht : interactionSel t = none) : selFilter s (t :: l) = selFilter s l := by
  simp [selFilter, ht]

theorem selFilter_cons_some_eq (s : String) (t : TraceRecord) (l : List TraceRecord)
    (ht : interactionSel t = some s) : selFilter s (t :: l) = t :: selFilter s l := by
  simp [selFilter, ht]

theorem selFilter_cons_some_ne (s s2 : String) (t : TraceRecord) (l : List TraceRecord)
    (ht : interactionSel t = some s2) (hne : ¬ s = s2) :
    selFilter s (t :: l) = selFilter s l := by
  have : ¬ (interactionSel t = some s) := by
    rw [ht]
    intro he
    exact hne (Option.some.inj he).symm
  simp [selFilter, this]

theorem filter_ne_filter_not_mem (X keys : List String) (st : String) (hst : st ∈ keys) :
    ((X.filter (fun x => decide (¬ x = st))).filter (fun s => decide (¬ s ∈ keys))) =
      X.filter (fun s => decide (¬ s ∈ keys)) := by
  rw [List.filter_filter]
  apply List.filter_congr
  intro a _
  by_cases ha : a = st
  · subst ha
    simp [hst]
  · simp [ha]

theorem filter_not_mem_append (X keys : List String) (st : String) :
    X.filter (fun s => decide (¬ s ∈ keys ++ [st])) =
      (X.filter (fun x => decide (¬ x = st))).filter (fun s => decide (¬ s ∈ keys)) := by
  rw [List.filter_filter]
  apply List.filter_congr
  intro a _
  by_cases ha : a = st
  · subst ha
    simp
  · by_cases hk : a ∈ keys <;> simp [ha, hk]

theorem foldl_gstep_characterization (l : List TraceRecord) :
    ∀ acc : List (String × List TraceRecord), (acc.map Prod.fst).Nodup →
      l.foldl gstep acc =
        acc.map (fun g => (g.1, g.2 ++ selFilter g.1 l)) ++
        ((firstSelectors l).filter (fun s => decide (¬ s ∈ acc.map Prod.fst))).map
          (fun s => (s, selFilter s l)) := by
  induction l with
  | nil =>
    intro acc hnd
    simp [selFilter, firstSelectors]
  | cons t rest ih =>
    intro acc hnd
    rw [List.foldl_cons]
    rcases hsel : interactionSel t with _ | st
    · have hg : gstep acc t = acc := by simp [gstep, hsel]
      have hfs : firstSelectors (t :: rest) = firstSelectors rest := by
        simp [firstSelectors, hsel]
      rw [hg, ih acc hnd, hfs]
      congr 1
      · apply List.map_congr_left
        intro g _
        rw [selFilter_cons_none g.1 t rest hsel]
      · apply List.map_congr_left
        intro s _
        rw [selFilter_cons_none s t rest hsel]
    · have hg : gstep acc t = groupInsert acc st t := by simp [gstep, hsel]
      have hfs : firstSelectors (t :: rest) =
          st :: (firstSelectors rest).filter (fun x => decide (¬ x = st)) := by
        simp [firstSelectors, hsel]
      rw [hg, hfs]
      by_cases hmem : st ∈ acc.map Prod.fst
      · have hnd2 : ((groupInsert acc st t).map Prod.fst).Nodup := by
          rw [groupInsert_keys_mem acc st t hnd hmem]
          exact hnd
        rw [ih (groupInsert acc st t) hnd2, groupInsert_keys_mem acc st t hnd hmem,
          groupInsert_mem acc st t hnd hmem, List.map_map]
        congr 1
        · apply List.map_congr_left
          intro g hgm
          by_cases hgs : g.1 = st
          · simp only [Function.comp, if_pos hgs]
            rw [selFilter_cons_some_eq g.1 t rest (by rw [hsel, hgs])]
            simp [List.append_assoc]
          · simp only [Function.comp, if_neg hgs]
            rw [selFilter_cons_some_ne g.1 st t rest hsel hgs]
        · rw [List.filter_cons]
          have hstf : (decide (¬ st ∈ acc.map Prod.fst)) = false := by simp [hmem]
          rw [hstf]
          simp only [Bool.false_eq_true, if_false]
          rw [filter_ne_filter_not_mem (firstSelectors rest) (acc.map Prod.fst) st hmem]
          apply List.map_congr_left
          intro s hs
          have hsk : ¬ s ∈ acc.map Prod.fst :=
            of_decide_eq_true (List.mem_filter.mp hs).2
          have hne : ¬ s = st := fun he => hsk (he ▸ hmem)
          rw [selFilter_cons_some_ne s st t rest hsel hne]
      · have hnd2 : ((groupInsert acc st t).map Prod.fst).Nodup := by
          rw [groupInsert_keys_not_mem acc st t hmem, List.nodup_append]
          refine ⟨hnd, List.nodup_singleton st, ?_⟩
          intro a ha hb
          rw [List.mem_singleton] at hb
          subst hb
          exact hmem ha
        rw [ih (groupInsert acc st t) hnd2, groupInsert_keys_not_mem acc st t hmem,
          groupInsert_not_mem acc st t hmem, List.map_append,
          filter_not_mem_append (firstSelectors rest) (acc.map Prod.fst) st,
          List.filter_cons]
        have hstf : (decide (¬ st ∈ acc.map Prod.fst)) = true := by simp [hmem]
        rw [hstf, if_pos rfl, List.map_cons, List.map_cons, List.map_nil,
          List.append_assoc]
        congr 1
        · apply List.map_congr_left
          intro g hgm
          have hne : ¬ g.1 = st := fun he =>
            hmem (he ▸ List.mem_map_of_mem Prod.fst hgm)
          rw [selFilter_cons_some_ne g.1 st t rest hsel hne]
        · rw [List.singleton_append]
          congr 1
          · rw [selFilter_cons_some_eq st t rest hsel]
            rfl
          · apply List.map_congr_left
            intro s hs
            have hne : ¬ s = st :=
              of_decide_eq_true (List.mem_filter.mp (List.mem_filter.mp hs).1).2
            rw [selFilter_cons_some_ne s st t rest hsel hne]

theorem groupBySelector_eq (l : List TraceRecord) :
    groupBySelector l = (firstSelectors l).map (fun s => (s, selFilter s l)) := by
  unfold groupBySelector
  rw [foldl_gstep_characterization l [] (by simp)]
  simp

/-- Claim C8: profile extraction groups records by selector in
first-appearance order, preserving original record order within each group —
stated as equality with the specification-side extraction `specExtract`, and
instantiated on the a, b, a scenario, whose profiles come out as both `a`
records in original order followed by the `b` record. -/
theorem c8_grouping_order :
    (∀ traces : List TraceRecord, extractProfiles traces = specExtract traces) ∧
    extractProfiles [recA1, recB, recA2] =
      [{ name := "click-on-a",
         trigger := { event := "click", selector := "a" },
         effect := { type := "transition", target := "a",
                     properties := [("opacity", "1", "0")], timing := none } },
       { name := "focus-on-a",
         trigger := { event := "focus", selector := "a" },
         effect := { type := "transition", target := "a",
                     properties := [("width", "1px", "9px")], timing := none } },
       { name := "click-on-b",
         trigger := { event := "click", selector := "b" },
         effect := { type := "transition", target := "b",
                     properties := [("opacity", "1", "0.5")], timing := none } }] := by
  constructor
  · intro traces
    unfold extractProfiles specExtract
    rw [groupBySelector_eq, List.map_map]
    rfl
  · decide

end ACT
